import Mathlib

/-!
Verification of the Answer Evaluation & Study-Record Engine of the
reading-comprehension quiz application (dokkai-training2-app).

The definitions below are a shallow embedding of the TypeScript source:
`types.ts` provides the data model and the single application file provides
the grading functions (`getScore`, `checkAnswerCorrectness`), the record
store operations (`saveAnswers`, `getAttemptCount`, `clearAllAnswers`, the
localStorage load in `App`), and the history categorization
(`categorizedAttempts` in `RecordsPage`).

Modelling conventions:
* JavaScript strings become `String`; `jsTrim` below models
  `String.prototype.trim` (strip leading and trailing whitespace).
* The runtime value of an answer is either a string or an array of strings
  (`UserAnswer` in `types.ts`); it is embedded as the sum type `UserAnswer`
  below.
* `Question.type` is a `String`: the TypeScript union type is erased at
  runtime, and the grading code dispatches on the string value with a
  fall-through / `default` branch for unrecognized kinds.
* JavaScript objects used as finite maps become either association lists
  (`List (Nat × UserAnswer)` for the per-question answer map, looked up
  with `List.lookup`) or total functions returning `[]` for absent keys
  (the two-level store `UserAnswers`); an absent key and a key bound to an
  empty list are indistinguishable to every operation modelled here.
* `Date.now()` timestamps and millisecond arithmetic are `Int`.
-/

/-- Runtime shape of a submitted or accepted answer: `string | string[]`
(`UserAnswer` in `types.ts`). -/
inductive UserAnswer where
  | str : String → UserAnswer
  | arr : List String → UserAnswer
deriving DecidableEq

/-- `Question` from `types.ts`. `type` is the runtime tag string
(`'multiple-choice' | 'extraction' | 'fill-in-the-blank'` in the TypeScript
annotation, erased at runtime, so any string can occur in data). -/
structure Question where
  type : String
  q : String
  options : Option (List String)
  a : UserAnswer
deriving DecidableEq

/-- `Excerpt` from `types.ts` (`notes` is a string-keyed record). -/
structure Excerpt where
  id : Nat
  subtitle : String
  text : String
  notes : List (String × String)
  questions : List Question
deriving DecidableEq

/-- `AnswerData` from `types.ts`: the per-question answer map (keyed by
question index), the study time in seconds, and the `Date.now()`
timestamp. -/
structure AnswerData where
  answers : List (Nat × UserAnswer)
  studyTime : Int
  timestamp : Int
deriving DecidableEq

/-- `UserAnswers` from `types.ts`: workId → excerptId → list of attempts.
Absent keys read as `[]`. -/
def UserAnswers : Type := String → String → List AnswerData

/-- `String.prototype.trim`: remove leading and trailing whitespace
characters (written with structural recursion over the character list so
that it evaluates on concrete inputs). -/
def jsTrim (s : String) : String :=
  ⟨((s.data.dropWhile Char.isWhitespace).reverse.dropWhile Char.isWhitespace).reverse⟩

/-- JavaScript strict equality `===` restricted to answer values: value
equality on two strings; a comparison involving an array is reference
equality, and the graded submission and the answer-key value are always
distinct objects at runtime, so it yields `false`. -/
def jsStrictEq : UserAnswer → UserAnswer → Bool
  | .str a, .str b => a == b
  | _, _ => false

/-- `checkAnswerCorrectness` (QuizPage): the switch on `question.type`.
`multiple-choice` uses `===`; `extraction` trims the submission and, when
the key is an array, also trims each alternative (a single-string key is
compared untrimmed); `fill-in-the-blank` requires both sides to be arrays
of equal length and compares the trimmed submission entry to the
*untrimmed* key entry at each position; the `default` branch returns
`false`. -/
def checkAnswerCorrectness (question : Question) (userAnswer : UserAnswer) : Bool :=
  if question.type = "multiple-choice" then
    jsStrictEq userAnswer question.a
  else if question.type = "extraction" then
    match question.a, userAnswer with
    | .arr alts, .str s => (alts.map jsTrim).contains (jsTrim s)
    | .arr _, .arr _ => false
    | .str t, .str s => jsTrim s == t
    | .str _, .arr _ => false
  else if question.type = "fill-in-the-blank" then
    match userAnswer, question.a with
    | .arr us, .arr accepted =>
        if us.length = accepted.length then
          (us.zip accepted).all fun p => jsTrim p.1 == p.2
        else false
    | _, _ => false
  else
    false

/-- The inline switch of `getScore`: identical comparison logic to
`checkAnswerCorrectness`, written there as a `switch` with no `default`
clause over an `isCorrect` variable initialized to `false` (so an
unrecognized `type` leaves it `false`). -/
def getScoreCheck (q : Question) (userAnswer : UserAnswer) : Bool :=
  if q.type = "multiple-choice" then
    jsStrictEq userAnswer q.a
  else if q.type = "extraction" then
    match q.a, userAnswer with
    | .arr alts, .str s => (alts.map jsTrim).contains (jsTrim s)
    | .arr _, .arr _ => false
    | .str t, .str s => jsTrim s == t
    | .str _, .arr _ => false
  else if q.type = "fill-in-the-blank" then
    match userAnswer, q.a with
    | .arr us, .arr accepted =>
        if us.length = accepted.length then
          (us.zip accepted).all fun p => jsTrim p.1 == p.2
        else false
    | _, _ => false
  else
    false

/-- One entry of the `results` array built by `getScore`. -/
structure QResult where
  isCorrect : Bool
  userAnswer : UserAnswer
  correctAnswer : UserAnswer
deriving DecidableEq

/-- Aggregate result of `getScore`. -/
structure ScoreResult where
  correct : Nat
  total : Nat
  results : List QResult
deriving DecidableEq

/-- Body of the `map` inside `getScore`: grade the question at index `p.1`.
A missing entry in the answer map short-circuits to an incorrect verdict
with the submitted answer reported as the empty string. -/
def gradeAt (answers : List (Nat × UserAnswer)) (p : Nat × Question) : QResult :=
  match answers.lookup p.1 with
  | none => { isCorrect := false, userAnswer := .str "", correctAnswer := p.2.a }
  | some ua => { isCorrect := getScoreCheck p.2 ua, userAnswer := ua, correctAnswer := p.2.a }

/-- `getScore`: grade every question of the excerpt against the attempt's
answer map, counting correct verdicts. (The TypeScript null guard on its
arguments has no counterpart: both arguments are total values here.) -/
def getScore (excerpt : Excerpt) (answerData : AnswerData) : ScoreResult :=
  let results := excerpt.questions.enum.map (gradeAt answerData.answers)
  { correct := results.countP (·.isCorrect)
    total := excerpt.questions.length
    results := results }

/-- The empty store `{}`. -/
def emptyAnswers : UserAnswers := fun _ _ => []

/-- `saveAnswers` (App): build an `AnswerData` with the given answer map,
study time and current timestamp (`Date.now()` is passed in as `now`), and
append it to the `(workId, excerptId.toString())` entry, leaving every
other entry unchanged (`prev[workId] || {}` and the missing-key default
`[]` are the `[]`-returning function entries here). -/
def saveAnswers (prev : UserAnswers) (workId : String) (excerptId : Nat)
    (userAnswers : List (Nat × UserAnswer)) (studyTime : Int) (now : Int) : UserAnswers :=
  let answerData : AnswerData :=
    { answers := userAnswers, studyTime := studyTime, timestamp := now }
  fun w e =>
    if w = workId ∧ e = toString excerptId then
      prev workId (toString excerptId) ++ [answerData]
    else
      prev w e

/-- `getAttemptCount` (App): `answers[workId]?.[excerptId.toString()]?.length || 0`. -/
def getAttemptCount (answers : UserAnswers) (workId : String) (excerptId : Nat) : Nat :=
  (answers workId (toString excerptId)).length

/-- `clearAllAnswers` (App): `setAnswers({})` — the next store state is the
empty store whatever the previous one was. -/
def clearAllAnswers (_ : UserAnswers) : UserAnswers := emptyAnswers

/-- Iterated `saveAnswers`: append each attempt of `ds` in order to the
same `(workId, excerptId)` entry. -/
def saveMany (s : UserAnswers) (workId : String) (excerptId : Nat)
    (ds : List AnswerData) : UserAnswers :=
  ds.foldl (fun st d => saveAnswers st workId excerptId d.answers d.studyTime d.timestamp) s

/-- The initial store in `App`: `const saved = localStorage.getItem('userAnswers');
return saved ? JSON.parse(saved) : {}` wrapped in `try`/`catch` returning `{}`.
`localStorage.getItem` returning `null` and the empty string are both falsy;
`JSON.parse` is an external primitive, modelled by the `parseJson` parameter,
with a thrown parse error modelled as `none` (the `catch` branch). -/
def loadAnswers (parseJson : String → Option UserAnswers) (saved : Option String) : UserAnswers :=
  match saved with
  | none => emptyAnswers
  | some s =>
    if s = "" then emptyAnswers
    else
      match parseJson s with
      | none => emptyAnswers
      | some a => a

/-- `Math.round(ms / 1000)` for an integer number of milliseconds:
`Math.round(x)` is `⌊x + 1/2⌋`, so the result is `⌊(2 * ms + 1000) / 2000⌋`. -/
def jsRoundMsToSeconds (ms : Int) : Int :=
  Int.fdiv (2 * ms + 1000) 2000

/-- The study time computed in `handleFinishQuiz`:
`Math.round((Date.now() - startTime) / 1000)`, replaced by `1` when not
greater than `0` (`studyTimeInSeconds > 0 ? studyTimeInSeconds : 1`). -/
def quizStudyTimeSeconds (startTime now : Int) : Int :=
  let studyTimeInSeconds := jsRoundMsToSeconds (now - startTime)
  if studyTimeInSeconds > 0 then studyTimeInSeconds else 1

/-- The store update performed by `handleFinishQuiz`: save the ordered
answers with the clamped study time and the current timestamp. -/
def handleFinishQuizSave (store : UserAnswers) (workId : String) (excerptId : Nat)
    (orderedAnswers : List (Nat × UserAnswer)) (startTime now : Int) : UserAnswers :=
  saveAnswers store workId excerptId orderedAnswers (quizStudyTimeSeconds startTime now) now

/-- One row of the `allAttempts` array built by `RecordsPage`, restricted
to the fields the categorization reads (the enrichment with the recomputed
score is dropped: it is not consulted by the bucketing). -/
structure RecAttempt where
  workId : String
  excerptId : Nat
  studyTime : Int
  timestamp : Int
deriving DecidableEq

/-- The five bucket keys of the `categories` record in `RecordsPage`
(`'today' | 'yesterday' | 'sevenDays' | 'thirtyDays' | 'older'`). -/
inductive BucketKey where
  | today
  | yesterday
  | sevenDays
  | thirtyDays
  | older
deriving DecidableEq

/-- The four day-start timestamps computed from `now` with calendar
arithmetic (`new Date(y, m, d)` and `setDate`): start of today, of
yesterday, of the day 7 days ago, and of the day 30 days ago. The calendar
computation itself is external (`Date`); only the resulting numbers are
modelled. -/
structure Cutoffs where
  todayStart : Int
  yesterdayStart : Int
  sevenDaysAgo : Int
  thirtyDaysAgo : Int
deriving DecidableEq

/-- The `if`/`else if` chain assigning `categoryKey` in `RecordsPage`: the
branch guarded by `attemptDate >= thirtyDaysAgo` assigns `'older'`, the
same key as the final `else`, so the key `'thirtyDays'` is never
assigned. -/
def bucketOf (c : Cutoffs) (ts : Int) : BucketKey :=
  if ts ≥ c.todayStart then .today
  else if ts ≥ c.yesterdayStart then .yesterday
  else if ts ≥ c.sevenDaysAgo then .sevenDays
  else if ts ≥ c.thirtyDaysAgo then .older
  else .older

/-- One bucket of the `categories` record: display title, collected
attempts, accumulated total study time. -/
structure Category where
  title : String
  attempts : List RecAttempt
  totalTime : Int
deriving DecidableEq

/-- The `categories` record of `RecordsPage`. -/
structure Categories where
  today : Category
  yesterday : Category
  sevenDays : Category
  thirtyDays : Category
  older : Category
deriving DecidableEq

/-- The initial `categories` record (empty attempt lists, zero totals). -/
def initCategories : Categories :=
  { today := { title := "今日の記録", attempts := [], totalTime := 0 }
    yesterday := { title := "昨日の記録", attempts := [], totalTime := 0 }
    sevenDays := { title := "過去7日間の記録", attempts := [], totalTime := 0 }
    thirtyDays := { title := "過去30日間の記録", attempts := [], totalTime := 0 }
    older := { title := "それより前の記録", attempts := [], totalTime := 0 } }

/-- Project the bucket selected by a key out of the record. -/
def bucketGet : BucketKey → Categories → Category
  | .today, cats => cats.today
  | .yesterday, cats => cats.yesterday
  | .sevenDays, cats => cats.sevenDays
  | .thirtyDays, cats => cats.thirtyDays
  | .older, cats => cats.older

/-- The body of the `forEach` in `RecordsPage`:
`categories[categoryKey].attempts.push(attempt)` and
`categories[categoryKey].totalTime += attempt.studyTime`. -/
def pushAttempt (cats : Categories) (k : BucketKey) (a : RecAttempt) : Categories :=
  match k with
  | .today => { cats with today :=
      { cats.today with attempts := cats.today.attempts ++ [a]
                        totalTime := cats.today.totalTime + a.studyTime } }
  | .yesterday => { cats with yesterday :=
      { cats.yesterday with attempts := cats.yesterday.attempts ++ [a]
                            totalTime := cats.yesterday.totalTime + a.studyTime } }
  | .sevenDays => { cats with sevenDays :=
      { cats.sevenDays with attempts := cats.sevenDays.attempts ++ [a]
                            totalTime := cats.sevenDays.totalTime + a.studyTime } }
  | .thirtyDays => { cats with thirtyDays :=
      { cats.thirtyDays with attempts := cats.thirtyDays.attempts ++ [a]
                             totalTime := cats.thirtyDays.totalTime + a.studyTime } }
  | .older => { cats with older :=
      { cats.older with attempts := cats.older.attempts ++ [a]
                        totalTime := cats.older.totalTime + a.studyTime } }

/-- The `allAttempts.forEach` loop: distribute every attempt into the
bucket chosen by `bucketOf`. -/
def categorizeAll (c : Cutoffs) (l : List RecAttempt) : Categories :=
  l.foldl (fun cats a => pushAttempt cats (bucketOf c a.timestamp) a) initCategories

/-- `allAttempts.sort((a, b) => b.timestamp - a.timestamp)`: a stable sort
into descending timestamp order. -/
def sortTimestampDesc (l : List RecAttempt) : List RecAttempt :=
  l.mergeSort fun a b => b.timestamp ≤ a.timestamp

/-- `Object.entries(categories)` in insertion order of the keys. -/
def categoryEntriesList (cats : Categories) : List (String × Category) :=
  [("today", cats.today), ("yesterday", cats.yesterday), ("sevenDays", cats.sevenDays),
   ("thirtyDays", cats.thirtyDays), ("older", cats.older)]

/-- `categorizedAttempts` (RecordsPage), taking the flattened `allAttempts`
rows as input (their construction walks the external `works` content data):
sort all attempts newest-first, distribute them into the buckets, and list
the buckets in record order, keeping only those with at least one
attempt. -/
def categorizedAttempts (c : Cutoffs) (allAttempts : List RecAttempt) :
    List (String × Category) :=
  let cats := categorizeAll c (sortTimestampDesc allAttempts)
  (categoryEntriesList cats).filter fun p => p.2.attempts.length > 0

lemma saveAnswers_same (st : UserAnswers) (w : String) (e : Nat) (d : AnswerData) :
    saveAnswers st w e d.answers d.studyTime d.timestamp w (toString e) =
      st w (toString e) ++ [d] := by
  simp [saveAnswers]

lemma saveMany_get (s : UserAnswers) (w : String) (e : Nat) (ds : List AnswerData) :
    saveMany s w e ds w (toString e) = s w (toString e) ++ ds := by
  induction ds generalizing s with
  | nil => simp [saveMany]
  | cons d ds ih =>
    have hstep : saveMany s w e (d :: ds) =
        saveMany (saveAnswers s w e d.answers d.studyTime d.timestamp) w e ds := rfl
    rw [hstep, ih, saveAnswers_same, List.append_assoc]
    rfl

/-- C4: appending `N` attempts to a `(workId, excerptId)` pair whose entry
starts empty stores exactly that list in order, and `getAttemptCount` then
returns `N`; each single `saveAnswers` appends the new attempt at the end
of the existing list and leaves every other entry of the store
unchanged. -/
theorem append_attempts_count (s : UserAnswers) (w : String) (e : Nat)
    (ds : List AnswerData) (h : s w (toString e) = []) :
    saveMany s w e ds w (toString e) = ds ∧
    getAttemptCount (saveMany s w e ds) w e = ds.length ∧
    (∀ (st : UserAnswers) (d : AnswerData),
      saveAnswers st w e d.answers d.studyTime d.timestamp w (toString e) =
        st w (toString e) ++ [d]) ∧
    (∀ (st : UserAnswers) (ua : List (Nat × UserAnswer)) (t now : Int) (w' e' : String),
      ¬(w' = w ∧ e' = toString e) →
      saveAnswers st w e ua t now w' e' = st w' e') := by
  refine ⟨?_, ?_, fun st d => saveAnswers_same st w e d, fun st ua t now w' e' h' => ?_⟩
  · rw [saveMany_get, h]; rfl
  · unfold getAttemptCount
    rw [saveMany_get, h]
    rfl
  · simp only [saveAnswers]
    rw [if_neg h']

/-- Witness for `append_attempts_count` at a two-attempt list over the
empty store. -/
theorem append_attempts_count_witness :
    (emptyAnswers "w" (toString 1) = []) ∧
    (saveMany emptyAnswers "w" 1 [⟨[], 1, 2⟩, ⟨[(0, .str "x")], 3, 4⟩] "w" (toString 1) =
        [⟨[], 1, 2⟩, ⟨[(0, .str "x")], 3, 4⟩] ∧
     getAttemptCount (saveMany emptyAnswers "w" 1 [⟨[], 1, 2⟩, ⟨[(0, .str "x")], 3, 4⟩]) "w" 1 =
        [(⟨[], 1, 2⟩ : AnswerData), ⟨[(0, .str "x")], 3, 4⟩].length ∧
     (∀ (st : UserAnswers) (d : AnswerData),
       saveAnswers st "w" 1 d.answers d.studyTime d.timestamp "w" (toString 1) =
         st "w" (toString 1) ++ [d]) ∧
     (∀ (st : UserAnswers) (ua : List (Nat × UserAnswer)) (t now : Int) (w' e' : String),
       ¬(w' = "w" ∧ e' = toString 1) →
       saveAnswers st "w" 1 ua t now w' e' = st w' e')) :=
  ⟨rfl, append_attempts_count emptyAnswers "w" 1 [⟨[], 1, 2⟩, ⟨[(0, .str "x")], 3, 4⟩] rfl⟩

/-- C9: after `clearAllAnswers` the store is the empty mapping, and
`getAttemptCount` returns `0` for every work and excerpt identifier. -/
theorem clearAll_then_count_zero (s : UserAnswers) :
    clearAllAnswers s = emptyAnswers ∧
    ∀ (w : String) (e : Nat), getAttemptCount (clearAllAnswers s) w e = 0 :=
  ⟨rfl, fun _ _ => rfl⟩

/-- C10: the attempt appended on quiz completion carries the clamped study
time, and that study time is always at least `1` second. -/
theorem finishQuiz_studyTime_positive (store : UserAnswers) (w : String) (e : Nat)
    (ans : List (Nat × UserAnswer)) (startTime now : Int) :
    handleFinishQuizSave store w e ans startTime now w (toString e) =
      store w (toString e) ++ [⟨ans, quizStudyTimeSeconds startTime now, now⟩] ∧
    1 ≤ quizStudyTimeSeconds startTime now := by
  constructor
  · simp [handleFinishQuizSave, saveAnswers]
  · unfold quizStudyTimeSeconds
    dsimp only
    split <;> omega

/-- C8: loading from an absent blob yields the empty store, and loading
from any blob the JSON parser rejects also yields the empty store. -/
theorem load_fallback_empty (parseJson : String → Option UserAnswers) :
    loadAnswers parseJson none = emptyAnswers ∧
    ∀ s : String, parseJson s = none → loadAnswers parseJson (some s) = emptyAnswers := by
  refine ⟨rfl, fun s hs => ?_⟩
  by_cases h : s = "" <;> simp [loadAnswers, h, hs]

/-- Witness for `load_fallback_empty` with a parser rejecting every
input. -/
theorem load_fallback_empty_witness :
    ((fun _ : String => (none : Option UserAnswers)) "x" = none) ∧
    loadAnswers (fun _ : String => (none : Option UserAnswers)) (some "x") = emptyAnswers :=
  ⟨rfl, (load_fallback_empty (fun _ => none)).2 "x" rfl⟩

/-- C5: a question whose index is missing from the attempt's answer map is
graded incorrect, with the submitted answer reported as the empty string
and the correct answer still reported. -/
theorem missing_answer_incorrect (ex : Excerpt) (ad : AnswerData) (i : Nat) (q : Question)
    (hq : ex.questions[i]? = some q) (h : ad.answers.lookup i = none) :
    (getScore ex ad).results[i]? =
      some { isCorrect := false, userAnswer := .str "", correctAnswer := q.a } := by
  simp [getScore, List.getElem?_map, List.getElem?_enum, hq, gradeAt, h]

/-- Witness for `missing_answer_incorrect` on a one-question excerpt and an
attempt with an empty answer map. -/
theorem missing_answer_incorrect_witness :
    ((Excerpt.mk 1 "" "" [] [⟨"extraction", "", none, .str "a"⟩]).questions[0]? =
        some ⟨"extraction", "", none, .str "a"⟩) ∧
    ((AnswerData.mk [] 1 0).answers.lookup 0 = none) ∧
    (getScore (Excerpt.mk 1 "" "" [] [⟨"extraction", "", none, .str "a"⟩])
        (AnswerData.mk [] 1 0)).results[0]? =
      some { isCorrect := false, userAnswer := .str "", correctAnswer := .str "a" } :=
  ⟨rfl, rfl,
    missing_answer_incorrect (Excerpt.mk 1 "" "" [] [⟨"extraction", "", none, .str "a"⟩])
      (AnswerData.mk [] 1 0) 0 ⟨"extraction", "", none, .str "a"⟩ rfl rfl⟩

/-- C6: a question whose `type` is none of the three recognized kinds is
graded incorrect by both comparison functions, and `getScore` reports an
incorrect verdict for it whatever answer was submitted. -/
theorem unrecognized_type_incorrect (q : Question) (ua : UserAnswer)
    (h1 : q.type ≠ "multiple-choice") (h2 : q.type ≠ "extraction")
    (h3 : q.type ≠ "fill-in-the-blank") :
    checkAnswerCorrectness q ua = false ∧ getScoreCheck q ua = false ∧
    ∀ (answers : List (Nat × UserAnswer)) (i : Nat), answers.lookup i = some ua →
      gradeAt answers (i, q) =
        { isCorrect := false, userAnswer := ua, correctAnswer := q.a } := by
  refine ⟨?_, ?_, fun answers i h => ?_⟩ <;>
    simp [checkAnswerCorrectness, getScoreCheck, gradeAt, h1, h2, h3, *]

/-- Witness for `unrecognized_type_incorrect` at the kind `"essay"`. -/
theorem unrecognized_type_incorrect_witness :
    ((Question.mk "essay" "" none (.str "a")).type ≠ "multiple-choice" ∧
     (Question.mk "essay" "" none (.str "a")).type ≠ "extraction" ∧
     (Question.mk "essay" "" none (.str "a")).type ≠ "fill-in-the-blank") ∧
    (checkAnswerCorrectness (Question.mk "essay" "" none (.str "a")) (.str "a") = false ∧
     getScoreCheck (Question.mk "essay" "" none (.str "a")) (.str "a") = false ∧
     ∀ (answers : List (Nat × UserAnswer)) (i : Nat), answers.lookup i = some (.str "a") →
       gradeAt answers (i, Question.mk "essay" "" none (.str "a")) =
         { isCorrect := false, userAnswer := .str "a", correctAnswer := .str "a" }) :=
  ⟨⟨by decide, by decide, by decide⟩,
    unrecognized_type_incorrect (Question.mk "essay" "" none (.str "a")) (.str "a")
      (by decide) (by decide) (by decide)⟩

lemma extraction_check_str (q : Question) (hq : q.type = "extraction") (t : String)
    (ha : q.a = .str t) (sub : UserAnswer) :
    checkAnswerCorrectness q sub = true ↔ ∃ s, sub = .str s ∧ jsTrim s = t := by
  unfold checkAnswerCorrectness
  rw [if_neg (by rw [hq]; decide), if_pos hq, ha]
  cases sub <;> simp

lemma extraction_check_arr (q : Question) (hq : q.type = "extraction") (alts : List String)
    (ha : q.a = .arr alts) (sub : UserAnswer) :
    checkAnswerCorrectness q sub = true ↔
      ∃ s, sub = .str s ∧ ∃ a ∈ alts, jsTrim s = jsTrim a := by
  unfold checkAnswerCorrectness
  rw [if_neg (by rw [hq]; decide), if_pos hq, ha]
  cases sub with
  | str s =>
    simp [List.mem_map]
    constructor
    · rintro ⟨a, ha1, ha2⟩
      exact ⟨a, ha1, ha2.symm⟩
    · rintro ⟨a, ha1, ha2⟩
      exact ⟨a, ha1, ha2.symm⟩
  | arr l => simp

/-- C3: for an extraction question with a single accepted string, a
submission is graded correct exactly when it is a string whose trimmed
value equals the accepted string; with a list of alternatives, exactly
when its trimmed value equals some trimmed alternative — in both the
`checkAnswerCorrectness` path and the `getScore` path. -/
theorem extraction_verdict (q : Question) (sub : UserAnswer) (hq : q.type = "extraction") :
    (∀ t : String, q.a = .str t →
      ((checkAnswerCorrectness q sub = true ↔ ∃ s, sub = .str s ∧ jsTrim s = t) ∧
       (getScoreCheck q sub = true ↔ ∃ s, sub = .str s ∧ jsTrim s = t))) ∧
    (∀ alts : List String, q.a = .arr alts →
      ((checkAnswerCorrectness q sub = true ↔
          ∃ s, sub = .str s ∧ ∃ a ∈ alts, jsTrim s = jsTrim a) ∧
       (getScoreCheck q sub = true ↔
          ∃ s, sub = .str s ∧ ∃ a ∈ alts, jsTrim s = jsTrim a))) := by
  have hgs : getScoreCheck q sub = checkAnswerCorrectness q sub := rfl
  refine ⟨fun t ha => ⟨extraction_check_str q hq t ha sub, ?_⟩,
          fun alts ha => ⟨extraction_check_arr q hq alts ha sub, ?_⟩⟩
  · rw [hgs]; exact extraction_check_str q hq t ha sub
  · rw [hgs]; exact extraction_check_arr q hq alts ha sub

/-- Witness for `extraction_verdict`: the submission `" ans "` is graded
correct against the single accepted string `"ans"`. -/
theorem extraction_verdict_witness :
    ((Question.mk "extraction" "" none (.str "ans")).type = "extraction") ∧
    checkAnswerCorrectness (Question.mk "extraction" "" none (.str "ans")) (.str " ans ") = true :=
  ⟨rfl, ((extraction_verdict (Question.mk "extraction" "" none (.str "ans"))
      (.str " ans ") rfl).1 "ans" rfl).1.mpr ⟨" ans ", rfl, by decide⟩⟩

/-- C1, counterexample: for the fill-in-the-blank question with accepted
sequence `[" a"]` and submission `["a"]` — an equal-length string sequence
that is trimmed-equal to the accepted sequence position-wise — the claimed
equivalence fails for both grading paths: the code compares the trimmed
submission entry with the *untrimmed* accepted entry, so the verdict is
incorrect. -/
theorem fillBlank_trim_counterexample :
    ¬ (checkAnswerCorrectness (Question.mk "fill-in-the-blank" "" none (.arr [" a"]))
          (.arr ["a"]) = true ↔
        ((["a"] : List String).length = ([" a"] : List String).length ∧
          ∀ p ∈ (["a"] : List String).zip [" a"], jsTrim p.1 = jsTrim p.2)) ∧
    ¬ (getScoreCheck (Question.mk "fill-in-the-blank" "" none (.arr [" a"]))
          (.arr ["a"]) = true ↔
        ((["a"] : List String).length = ([" a"] : List String).length ∧
          ∀ p ∈ (["a"] : List String).zip [" a"], jsTrim p.1 = jsTrim p.2)) := by
  decide

lemma all_zip_trim_iff (us accepted : List String) (h : us.length = accepted.length) :
    ((us.zip accepted).all (fun p => jsTrim p.1 == p.2) = true) ↔
      List.Forall₂ (fun u a => jsTrim u = a) us accepted := by
  rw [List.forall₂_iff_zip]
  constructor
  · intro hall
    refine ⟨h, fun hab => ?_⟩
    have := List.all_eq_true.mp hall _ hab
    simpa using this
  · rintro ⟨-, h2⟩
    apply List.all_eq_true.mpr
    intro p hp
    have := h2 (a := p.1) (b := p.2) (by simpa using hp)
    simpa using this

lemma fillBlank_check_iff (q : Question) (hq : q.type = "fill-in-the-blank")
    (accepted : List String) (ha : q.a = .arr accepted) (sub : UserAnswer) :
    checkAnswerCorrectness q sub = true ↔
      ∃ us, sub = .arr us ∧ List.Forall₂ (fun u a => jsTrim u = a) us accepted := by
  unfold checkAnswerCorrectness
  rw [if_neg (by rw [hq]; decide), if_neg (by rw [hq]; decide), if_pos hq, ha]
  cases sub with
  | str s => simp
  | arr us =>
    dsimp only
    by_cases hlen : us.length = accepted.length
    · rw [if_pos hlen, all_zip_trim_iff us accepted hlen]
      constructor
      · intro hf
        exact ⟨us, rfl, hf⟩
      · rintro ⟨us', heq, hf⟩
        injection heq with h'
        subst h'
        exact hf
    · rw [if_neg hlen]
      constructor
      · intro hfalse
        simp at hfalse
      · rintro ⟨us', heq, hf⟩
        injection heq with h'
        subst h'
        exact absurd hf.length_eq hlen

/-- C1, amended: for a fill-in-the-blank question, a submission is graded
correct exactly when it is a string sequence of the same length as the
accepted sequence whose entries, after trimming, equal the corresponding
accepted entries *as stored* (the accepted entries are not trimmed); any
length mismatch yields an incorrect verdict — in both grading paths. -/
theorem fillBlank_verdict (q : Question) (sub : UserAnswer) (accepted : List String)
    (hq : q.type = "fill-in-the-blank") (ha : q.a = .arr accepted) :
    ((checkAnswerCorrectness q sub = true ↔
        ∃ us, sub = .arr us ∧ List.Forall₂ (fun u a => jsTrim u = a) us accepted) ∧
     (getScoreCheck q sub = true ↔
        ∃ us, sub = .arr us ∧ List.Forall₂ (fun u a => jsTrim u = a) us accepted)) ∧
    (∀ us : List String, sub = .arr us → us.length ≠ accepted.length →
      checkAnswerCorrectness q sub = false ∧ getScoreCheck q sub = false) := by
  have hgs : getScoreCheck q sub = checkAnswerCorrectness q sub := rfl
  refine ⟨⟨fillBlank_check_iff q hq accepted ha sub, ?_⟩, fun us hsub hlen => ?_⟩
  · rw [hgs]; exact fillBlank_check_iff q hq accepted ha sub
  · subst hsub
    have hfalse : checkAnswerCorrectness q (.arr us) = false := by
      rw [Bool.eq_false_iff]
      intro htrue
      obtain ⟨us', heq, hf⟩ := (fillBlank_check_iff q hq accepted ha (.arr us)).mp htrue
      injection heq with h'
      subst h'
      exact hlen hf.length_eq
    exact ⟨hfalse, hfalse⟩

/-- Witness for `fillBlank_verdict`: the submission `["a ", "b"]` is graded
correct against the accepted sequence `["a", "b"]`. -/
theorem fillBlank_verdict_witness :
    ((Question.mk "fill-in-the-blank" "" none (.arr ["a", "b"])).type = "fill-in-the-blank" ∧
     (Question.mk "fill-in-the-blank" "" none (.arr ["a", "b"])).a = .arr ["a", "b"]) ∧
    checkAnswerCorrectness (Question.mk "fill-in-the-blank" "" none (.arr ["a", "b"]))
      (.arr ["a ", "b"]) = true :=
  ⟨⟨rfl, rfl⟩,
    ((fillBlank_verdict (Question.mk "fill-in-the-blank" "" none (.arr ["a", "b"]))
        (.arr ["a ", "b"]) ["a", "b"] rfl rfl).1.1).mpr
      ⟨["a ", "b"], rfl, .cons (by decide) (.cons (by decide) .nil)⟩⟩

lemma bucketOf_ne_thirtyDays (c : Cutoffs) (ts : Int) : bucketOf c ts ≠ .thirtyDays := by
  unfold bucketOf
  repeat' split
  all_goals simp

lemma bucketGet_pushAttempt (cats : Categories) (k k' : BucketKey) (a : RecAttempt) :
    bucketGet k (pushAttempt cats k' a) =
      if k' = k then
        { bucketGet k cats with
            attempts := (bucketGet k cats).attempts ++ [a]
            totalTime := (bucketGet k cats).totalTime + a.studyTime }
      else bucketGet k cats := by
  cases k' <;> cases k <;> simp [pushAttempt, bucketGet]

lemma foldl_pushAttempt_bucketGet (c : Cutoffs) (l : List RecAttempt)
    (cats : Categories) (k : BucketKey) :
    bucketGet k (l.foldl (fun cs a => pushAttempt cs (bucketOf c a.timestamp) a) cats) =
      { bucketGet k cats with
          attempts := (bucketGet k cats).attempts ++
            l.filter (fun a => bucketOf c a.timestamp == k)
          totalTime := (bucketGet k cats).totalTime +
            ((l.filter (fun a => bucketOf c a.timestamp == k)).map (·.studyTime)).sum } := by
  induction l generalizing cats with
  | nil => simp
  | cons a l ih =>
    rw [List.foldl_cons, ih, bucketGet_pushAttempt]
    by_cases h : bucketOf c a.timestamp = k
    · simp [h, List.filter_cons, List.append_assoc, add_assoc]
    · simp [h, List.filter_cons]

lemma categorizeAll_bucketGet (c : Cutoffs) (l : List RecAttempt) (k : BucketKey) :
    (bucketGet k (categorizeAll c l)).attempts =
        l.filter (fun a => bucketOf c a.timestamp == k) ∧
    (bucketGet k (categorizeAll c l)).totalTime =
        ((l.filter (fun a => bucketOf c a.timestamp == k)).map (·.studyTime)).sum := by
  unfold categorizeAll
  rw [foldl_pushAttempt_bucketGet]
  cases k <;> simp [bucketGet, initCategories]

lemma sortTimestampDesc_pairwise (l : List RecAttempt) :
    (sortTimestampDesc l).Pairwise (fun a b => b.timestamp ≤ a.timestamp) := by
  have h := @List.sorted_mergeSort RecAttempt
      (fun a b => decide (b.timestamp ≤ a.timestamp))
      (by intro a b x h1 h2; simp at h1 h2 ⊢; omega)
      (by intro a b; simp [Bool.or_eq_true]; omega) l
  unfold sortTimestampDesc
  refine h.imp ?_
  intro a b hab
  simpa using hab

/-- C2: with the day-start cutoffs in their calendar order, every attempt
older than the start of the day 7 days before today is assigned to the
`older` bucket; the `thirtyDays` bucket collects no attempt for any input,
and no `"thirtyDays"` entry ever appears in the rendered report. -/
theorem thirtyDay_bucket_unreachable :
    (∀ (c : Cutoffs) (ts : Int), c.sevenDaysAgo ≤ c.yesterdayStart →
        c.yesterdayStart ≤ c.todayStart → ts < c.sevenDaysAgo →
        bucketOf c ts = BucketKey.older) ∧
    (∀ (c : Cutoffs) (l : List RecAttempt),
        (categorizeAll c l).thirtyDays.attempts = []) ∧
    (∀ (c : Cutoffs) (l : List RecAttempt) (p : String × Category),
        p ∈ categorizedAttempts c l → p.1 ≠ "thirtyDays") := by
  have hmain : ∀ (c : Cutoffs) (l : List RecAttempt),
      (categorizeAll c l).thirtyDays.attempts = [] := by
    intro c l
    show (bucketGet .thirtyDays (categorizeAll c l)).attempts = []
    rw [(categorizeAll_bucketGet c l .thirtyDays).1]
    apply List.filter_eq_nil_iff.mpr
    intro a _
    simp [bucketOf_ne_thirtyDays]
  refine ⟨?_, hmain, ?_⟩
  · intro c ts h1 h2 h3
    unfold bucketOf
    rw [if_neg (by omega), if_neg (by omega), if_neg (by omega)]
    split <;> rfl
  · intro c l p hp
    simp only [categorizedAttempts] at hp
    rw [List.mem_filter] at hp
    obtain ⟨hmem, hpos⟩ := hp
    simp only [categoryEntriesList, List.mem_cons, List.not_mem_nil, or_false] at hmem
    rcases hmem with h | h | h | h | h
    · rw [h]; simp
    · rw [h]; simp
    · rw [h]; simp
    · rw [h] at hpos
      rw [hmain c (sortTimestampDesc l)] at hpos
      simp at hpos
    · rw [h]; simp

/-- Witness for `thirtyDay_bucket_unreachable`: a timestamp below the
7-day cutoff lands in the `older` bucket. -/
theorem thirtyDay_bucket_unreachable_witness :
    ((Cutoffs.mk 30 20 10 0).sevenDaysAgo ≤ (Cutoffs.mk 30 20 10 0).yesterdayStart ∧
     (Cutoffs.mk 30 20 10 0).yesterdayStart ≤ (Cutoffs.mk 30 20 10 0).todayStart ∧
     (5 : Int) < (Cutoffs.mk 30 20 10 0).sevenDaysAgo) ∧
    bucketOf (Cutoffs.mk 30 20 10 0) 5 = BucketKey.older :=
  ⟨⟨by decide, by decide, by decide⟩,
    thirtyDay_bucket_unreachable.1 (Cutoffs.mk 30 20 10 0) 5 (by decide) (by decide) (by decide)⟩

/-- C7: every bucket listed in the report has a total time equal to the
sum of its attempts' study times, a nonempty attempt list, and attempts in
descending timestamp order; and every bucket of the record with a
nonempty attempt list is listed. -/
theorem records_report (c : Cutoffs) (l : List RecAttempt) :
    (∀ p ∈ categorizedAttempts c l,
        p.2.totalTime = (p.2.attempts.map RecAttempt.studyTime).sum ∧
        p.2.attempts ≠ [] ∧
        p.2.attempts.Pairwise (fun a b => b.timestamp ≤ a.timestamp)) ∧
    (∀ p ∈ categoryEntriesList (categorizeAll c (sortTimestampDesc l)),
        p.2.attempts ≠ [] → p ∈ categorizedAttempts c l) := by
  constructor
  · intro p hp
    simp only [categorizedAttempts] at hp
    rw [List.mem_filter] at hp
    obtain ⟨hmem, hpos⟩ := hp
    have hbucket : ∃ k : BucketKey,
        p.2 = bucketGet k (categorizeAll c (sortTimestampDesc l)) := by
      simp only [categoryEntriesList, List.mem_cons, List.not_mem_nil, or_false] at hmem
      rcases hmem with h | h | h | h | h
      exacts [⟨.today, by rw [h]; rfl⟩, ⟨.yesterday, by rw [h]; rfl⟩,
              ⟨.sevenDays, by rw [h]; rfl⟩, ⟨.thirtyDays, by rw [h]; rfl⟩,
              ⟨.older, by rw [h]; rfl⟩]
    obtain ⟨k, hk⟩ := hbucket
    obtain ⟨hatt, htot⟩ := categorizeAll_bucketGet c (sortTimestampDesc l) k
    rw [hk] at hpos ⊢
    refine ⟨?_, ?_, ?_⟩
    · rw [htot, hatt]
    · have hlen := of_decide_eq_true hpos
      exact List.length_pos.mp hlen
    · rw [hatt]
      exact (sortTimestampDesc_pairwise l).sublist (List.filter_sublist _)
  · intro p hp hne
    simp only [categorizedAttempts]
    rw [List.mem_filter]
    refine ⟨hp, ?_⟩
    simp [List.length_pos, hne]

unseal List.merge List.mergeSort in
/-- Witness for `records_report` on a one-attempt store whose attempt falls
in the `today` bucket. -/
theorem records_report_witness :
    (("today", Category.mk "今日の記録" [RecAttempt.mk "w" 1 5 100] 5) ∈
        categorizedAttempts (Cutoffs.mk 50 40 30 20) [RecAttempt.mk "w" 1 5 100]) ∧
    ((Category.mk "今日の記録" [RecAttempt.mk "w" 1 5 100] 5).totalTime =
        ((Category.mk "今日の記録" [RecAttempt.mk "w" 1 5 100] 5).attempts.map
          RecAttempt.studyTime).sum ∧
     (Category.mk "今日の記録" [RecAttempt.mk "w" 1 5 100] 5).attempts ≠ [] ∧
     (Category.mk "今日の記録" [RecAttempt.mk "w" 1 5 100] 5).attempts.Pairwise
        (fun a b => b.timestamp ≤ a.timestamp)) :=
  ⟨by decide,
    (records_report (Cutoffs.mk 50 40 30 20) [RecAttempt.mk "w" 1 5 100]).1
      ("today", Category.mk "今日の記録" [RecAttempt.mk "w" 1 5 100] 5) (by decide)⟩
